import Mathlib

/-!
Verification of the tire-search pipeline in `search/ai_search.py`.

Strings are modelled as `List Char` obtained from `String.data`; Python's
`str.lower()` / `str.upper()` are modelled with `Char.toLower` / `Char.toUpper`
(the ASCII range, which covers every character the pipeline inspects), and
Python's `in` operator on strings is modelled by the contiguous-substring
test `containsSub`.  Catalog items (Python dicts) are modelled by the `Tire`
structure whose fields are the four keys the code reads with `.get`; an
absent key is represented by the corresponding `.get` default (`""` / `[]`).
-/

namespace AiSearch

/-- Python `str.lower()` applied to a query, as a character list. -/
def pyLower (s : String) : List Char := s.data.map Char.toLower

/-- Python `str.upper()`, as a character list. -/
def pyUpper (s : String) : List Char := s.data.map Char.toUpper

/-- `beginsWith needle hay`: `hay` starts with `needle`. -/
def beginsWith : List Char → List Char → Bool
  | [], _ => true
  | _ :: _, [] => false
  | a :: as, b :: bs => a == b && beginsWith as bs

/-- Python's `needle in hay` for strings: `needle` occurs as a contiguous
substring of `hay`. -/
def containsSub (needle : List Char) : List Char → Bool
  | [] => beginsWith needle []
  | c :: t => beginsWith needle (c :: t) || containsSub needle t

/-- The whitespace class of Python's regex `\s` (ASCII range). -/
def pySpace (c : Char) : Bool :=
  c == ' ' || c == '\t' || c == '\n' || c == '\r' || c == '\x0b' || c == '\x0c'

/-- Drop the maximal run of leading regex whitespace. -/
def skipWs : List Char → List Char
  | [] => []
  | c :: cs => if pySpace c then skipWs cs else c :: cs

/-- After a literal `r`, the regex `\s*(1[4-9])` of `extract_size` matches
exactly when the maximal whitespace run is followed by `'1'` and a digit in
`'4'..'9'`; the captured group is `"1" ++ d`, returned here as `d`. -/
def matchAfterR (cs : List Char) : Option Char :=
  match skipWs cs with
  | c1 :: d :: _ => if c1 = '1' ∧ '4' ≤ d ∧ d ≤ '9' then some d else none
  | _ => none

/-- Left-to-right scan of `re.search(r"r\s*(1[4-9])", lq)`: the earliest
position holding `'r'` at which the rest of the pattern matches wins. -/
def extractSizeAux : List Char → Option String
  | [] => none
  | c :: cs =>
    if c = 'r' then
      match matchAfterR cs with
      | some d => some (String.mk ['R', '1', d])
      | none => extractSizeAux cs
    else extractSizeAux cs

/-- `extract_size` of `search/ai_search.py` (lines 21-28):
`re.search(r"r\s*(1[4-9])", query.lower())`, returning `f"R{group(1)}"` on a
match and `None` otherwise. -/
def extract_size (query : String) : Option String :=
  extractSizeAux (pyLower query)

/-- `tire_match_size` of `search/ai_search.py` (lines 31-34): vacuously true
for a falsy (`None` / empty) target, else Python's
`target_size in tire_size.upper()`. -/
def tire_match_size (tire_size : String) (target_size : Option String) : Bool :=
  match target_size with
  | none => true
  | some t => if t.isEmpty then true else containsSub t.data (pyUpper tire_size)

/-- A catalog item: the four dict keys `filter_tires` reads via `.get`. -/
structure Tire where
  brand_cn : String
  brand_en : String
  size : String
  categories : List String
  deriving Repr, DecidableEq

/-- `extract_categories` of `search/ai_search.py` (lines 38-49): every
non-reserved taxonomy category one of whose trigger words occurs (lower-cased)
in the lower-cased query.  The Python code collects the names in a `set`;
only membership and emptiness of the result are consumed downstream, and we
return them in taxonomy order. -/
def extract_categories (query : String) (keyword_mapping : List (String × List String)) :
    List String :=
  (keyword_mapping.filter (fun p =>
    !(p.1 == "brand") && !(p.1 == "size") &&
      p.2.any (fun w => containsSub (pyLower w) (pyLower query)))).map Prod.fst

/-- `extract_brand` of `search/ai_search.py` (lines 52-57): the first brand
keyword (in list order) whose lower-cased form occurs in the lower-cased
query. -/
def extract_brand (query : String) (brand_keywords : List String) : Option String :=
  brand_keywords.find? (fun b => containsSub (pyLower b) (pyLower query))

/-- The brand `continue` of `filter_tires`: the guard `if target_brand:`
followed by `target_brand not in t.get("brand_cn", "") and target_brand not in
t.get("brand_en", "")`. -/
def brand_excludes (target_brand : Option String) (t : Tire) : Bool :=
  match target_brand with
  | none => false
  | some b =>
    !b.isEmpty && !(containsSub b.data t.brand_cn.data) &&
      !(containsSub b.data t.brand_en.data)

/-- The category `continue` of `filter_tires`: the guard `if categories:`
followed by `not any(c in tire_categories for c in categories)`. -/
def category_excludes (categories : List String) (t : Tire) : Bool :=
  !categories.isEmpty && !(categories.any (fun c => t.categories.contains c))

/-- `filter_tires` of `search/ai_search.py` (lines 61-82): the accumulating
loop with its three `continue` branches (brand, size, category). -/
def filter_tires : List Tire → List String → Option String → Option String → List Tire
  | [], _, _, _ => []
  | t :: rest, categories, target_size, target_brand =>
    if brand_excludes target_brand t then
      filter_tires rest categories target_size target_brand
    else if !(tire_match_size t.size target_size) then
      filter_tires rest categories target_size target_brand
    else if category_excludes categories t then
      filter_tires rest categories target_size target_brand
    else
      t :: filter_tires rest categories target_size target_brand

/-- Python `keyword_mapping.get(k, [])` on the ordered dict model. -/
def kmGet (keyword_mapping : List (String × List String)) (k : String) : List String :=
  match keyword_mapping.find? (fun p => p.1 == k) with
  | some p => p.2
  | none => []

/-- Lines 99-108 of `ai_search_and_rank`: the strictly filtered candidates,
widened to `tires[:50]` when the filter came back empty. -/
def candidatesFrom (tires : List Tire) (categories : List String)
    (target_size target_brand : Option String) : List Tire :=
  let candidates := filter_tires tires categories target_size target_brand
  if candidates.isEmpty then tires.take 50 else candidates

/-- The candidate set `ai_search_and_rank` hands to the ranking call, after
intent extraction and the empty-result fallback. -/
def searchCandidates (query : String) (tires : List Tire)
    (keyword_mapping : List (String × List String)) : List Tire :=
  candidatesFrom tires
    (extract_categories query keyword_mapping)
    (extract_size query)
    (extract_brand query (kmGet keyword_mapping "brand"))

/-- Reified outcome of the external ranking round trip guarded by the
`try`/`except` of `ai_search_and_rank`: the response content parsed as a JSON
list, parsed as some non-list value, or any exception raised inside the
`try` block (network error, timeout, `json.loads` parse error, missing
content). -/
inductive RankResponse where
  | parsedList (items : List Tire)
  | parsedNonList
  | exn
  deriving Repr, DecidableEq

/-- Does the guarded call yield a parsed JSON list? -/
def RankResponse.isParsedList : RankResponse → Bool
  | .parsedList _ => true
  | _ => false

/-- `ai_search_and_rank` of `search/ai_search.py` (lines 86-136).  The body is
total in the model: every failure mode of the guarded external call is a
`RankResponse` value, mirroring the blanket `except Exception` that absorbs
it; `api_key` only feeds the client constructor and the prompt only feeds the
request, neither affecting the returned value. -/
def ai_search_and_rank (query : String) (tires : List Tire)
    (keyword_mapping : List (String × List String)) (api_key : String)
    (max_results : Nat) (response : RankResponse) : List Tire :=
  let _ := api_key
  let candidates := searchCandidates query tires keyword_mapping
  match response with
  | .parsedList parsed => parsed.take max_results
  | .parsedNonList => candidates.take max_results
  | .exn => candidates.take max_results

/-- The two ways `load_data` can fail: `FileNotFoundError` propagating from
`open`, and the `ValueError` raised on a missing top-level key. -/
inductive LoadError where
  | notFound
  | schemaError
  deriving Repr, DecidableEq

/-- Does the parsed top-level dict carry key `k`? -/
def hasKey {α : Type} (data : List (String × α)) (k : String) : Bool :=
  data.any (fun p => p.1 == k)

/-- `load_data` of `search/ai_search.py` (lines 10-17).  The filesystem is
reified as `resource`: `none` when `data/tires.json` does not exist (`open`
raises `FileNotFoundError`), `some data` when it exists and parses to the
top-level dict `data`, modelled as an association list over an arbitrary
value type. -/
def load_data {α : Type} (resource : Option (List (String × α))) :
    Except LoadError (List (String × α)) :=
  match resource with
  | none => Except.error LoadError.notFound
  | some data =>
    if !(hasKey data "tires") || !(hasKey data "keyword_mapping") then
      Except.error LoadError.schemaError
    else
      Except.ok data

/-! ## Spec-side definitions

These follow the wording of the specification, to be compared with the
definitions above, which follow the source. -/

/-- Spec, §4.2: a rim-diameter occurrence at position `i` of the lower-cased
query: the letter `r`, optionally followed by whitespace, followed by a
two-digit diameter between 14 and 19 inclusive (the digit `'1'` and a digit
between `'4'` and `'9'`). -/
def RimMatchAt (cs : List Char) (i : Nat) (d : Char) : Prop :=
  ∃ pre ws suf, pre.length = i ∧
    cs = pre ++ 'r' :: (ws ++ '1' :: d :: suf) ∧
    (∀ c ∈ ws, pySpace c = true) ∧ '4' ≤ d ∧ d ≤ '9'

/-- Spec, §4.3 predicate 1: vacuously true without a target brand, otherwise
the target brand string (original casing) is a case-sensitive substring of the
item's localized name or of its common name. -/
def specBrandPred (target_brand : Option String) (t : Tire) : Bool :=
  match target_brand with
  | none => true
  | some b =>
    b.isEmpty || containsSub b.data t.brand_cn.data || containsSub b.data t.brand_en.data

/-- Spec, §4.3 predicate 2: vacuously true without a target size, otherwise
the target size token is a substring of the upper-cased item size field. -/
def specSizePred (target_size : Option String) (t : Tire) : Bool :=
  match target_size with
  | none => true
  | some s => s.isEmpty || containsSub s.data (pyUpper t.size)

/-- Spec, §4.3 predicate 3: vacuously true for an empty extracted category
set, otherwise the item's categories intersect the extracted set. -/
def specCategoryPred (categories : List String) (t : Tire) : Bool :=
  categories.isEmpty || categories.any (fun c => t.categories.contains c)

/-- Spec, §4.3: the per-item predicate is the unconditional AND of the three
sub-predicates. -/
def specKeep (categories : List String) (target_size target_brand : Option String)
    (t : Tire) : Bool :=
  specBrandPred target_brand t && specSizePred target_size t &&
    specCategoryPred categories t

/-- Scenario item A of spec §8: brand `"Brand1"`, size `"205/55R16"`,
categories `{"comfort"}`. -/
def tireA : Tire := ⟨"Brand1", "Brand1", "205/55R16", ["comfort"]⟩

/-- Scenario item B of spec §8: brand `"Brand2"`, size `"225/45R17"`,
categories `{"sport"}`. -/
def tireB : Tire := ⟨"Brand2", "Brand2", "225/45R17", ["sport"]⟩

/-- Scenario item C of spec §8: brand `"Brand1"`, size `"205/55R17"`,
categories `{"sport"}`. -/
def tireC : Tire := ⟨"Brand1", "Brand1", "205/55R17", ["sport"]⟩

/-- Scenario taxonomy of spec §8: `"sport" -> ["sport"]`,
`brand -> ["Brand1", "Brand2"]`. -/
def demoTaxonomy : List (String × List String) :=
  [("sport", ["sport"]), ("brand", ["Brand1", "Brand2"])]

/-! ## Helper lemmas -/

theorem filter_tires_eq_filter (tires : List Tire) (categories : List String)
    (target_size target_brand : Option String) :
    filter_tires tires categories target_size target_brand =
      tires.filter (specKeep categories target_size target_brand) := by
  induction tires with
  | nil => rfl
  | cons t rest ih =>
    have hb : brand_excludes target_brand t = !specBrandPred target_brand t := by
      cases target_brand with
      | none => rfl
      | some b =>
        simp only [brand_excludes, specBrandPred]
        cases b.isEmpty <;> cases containsSub b.data t.brand_cn.data <;>
          cases containsSub b.data t.brand_en.data <;> rfl
    have hs : tire_match_size t.size target_size = specSizePred target_size t := by
      cases target_size with
      | none => rfl
      | some s =>
        simp only [tire_match_size, specSizePred]
        cases s.isEmpty <;> simp
    have hc : category_excludes categories t = !specCategoryPred categories t := by
      simp only [category_excludes, specCategoryPred]
      cases categories.isEmpty <;> cases categories.any (fun c => t.categories.contains c) <;> rfl
    simp only [filter_tires, List.filter, hb, hs, hc, ih, specKeep]
    cases hB : specBrandPred target_brand t <;>
      cases hS : specSizePred target_size t <;>
        cases hC : specCategoryPred categories t <;> simp

theorem skipWs_decomp : ∀ cs : List Char,
    ∃ ws, cs = ws ++ skipWs cs ∧ ∀ c ∈ ws, pySpace c = true
  | [] => ⟨[], rfl, by simp⟩
  | c :: cs => by
    by_cases h : pySpace c = true
    · obtain ⟨ws, heq, hws⟩ := skipWs_decomp cs
      refine ⟨c :: ws, ?_, ?_⟩
      · simpa [skipWs, h] using heq
      · intro x hx
        rcases List.mem_cons.mp hx with h1 | h2
        · exact h1 ▸ h
        · exact hws x h2
    · exact ⟨[], by simp [skipWs, h], by simp⟩

theorem skipWs_append (ws rest : List Char) (h : ∀ c ∈ ws, pySpace c = true) :
    skipWs (ws ++ rest) = skipWs rest := by
  induction ws with
  | nil => rfl
  | cons c cs ih =>
    have hc : pySpace c = true := h c (List.mem_cons_self c cs)
    simpa [skipWs, hc] using ih (fun x hx => h x (List.mem_cons_of_mem c hx))

theorem matchAfterR_some {cs : List Char} {d : Char} (h : matchAfterR cs = some d) :
    (∃ ws suf, cs = ws ++ '1' :: d :: suf ∧ ∀ c ∈ ws, pySpace c = true) ∧
      '4' ≤ d ∧ d ≤ '9' := by
  obtain ⟨ws, heq, hws⟩ := skipWs_decomp cs
  unfold matchAfterR at h
  cases hskip : skipWs cs with
  | nil => rw [hskip] at h; cases h
  | cons c1 t =>
    cases t with
    | nil => rw [hskip] at h; cases h
    | cons d0 t' =>
      rw [hskip] at h
      dsimp only at h
      by_cases hcond : c1 = '1' ∧ '4' ≤ d0 ∧ d0 ≤ '9'
      · rw [if_pos hcond] at h
        obtain ⟨h1, h4, h9⟩ := hcond
        obtain rfl : d0 = d := Option.some.inj h
        subst h1
        exact ⟨⟨ws, t', by rw [heq, hskip], hws⟩, h4, h9⟩
      · rw [if_neg hcond] at h; cases h

theorem matchAfterR_complete (ws suf : List Char) (d : Char)
    (hws : ∀ c ∈ ws, pySpace c = true) (h4 : '4' ≤ d) (h9 : d ≤ '9') :
    matchAfterR (ws ++ '1' :: d :: suf) = some d := by
  unfold matchAfterR
  rw [skipWs_append ws _ hws]
  have hred : skipWs ('1' :: d :: suf) = '1' :: d :: suf := by
    simp [skipWs, pySpace]
  rw [hred]
  dsimp only
  rw [if_pos ⟨rfl, h4, h9⟩]

theorem rimMatchAt_nil (i : Nat) (d : Char) : ¬ RimMatchAt [] i d := by
  rintro ⟨pre, ws, suf, -, heq, -⟩
  exact absurd heq.symm (List.append_ne_nil_of_right_ne_nil pre (by simp))

theorem rimMatchAt_cons {c : Char} {cs : List Char} {i : Nat} {d : Char} :
    RimMatchAt (c :: cs) (i + 1) d ↔ RimMatchAt cs i d := by
  constructor
  · rintro ⟨pre, ws, suf, hlen, heq, hws, h4, h9⟩
    cases pre with
    | nil => cases hlen
    | cons p pre' =>
      obtain ⟨-, heq'⟩ := List.cons.inj heq
      exact ⟨pre', ws, suf, Nat.succ.inj hlen, heq', hws, h4, h9⟩
  · rintro ⟨pre, ws, suf, hlen, heq, hws, h4, h9⟩
    exact ⟨c :: pre, ws, suf, by simp [hlen], by rw [heq]; rfl, hws, h4, h9⟩

theorem rimMatchAt_zero {c : Char} {cs : List Char} {d : Char} :
    RimMatchAt (c :: cs) 0 d ↔
      c = 'r' ∧ (∃ ws suf, cs = ws ++ '1' :: d :: suf ∧ ∀ x ∈ ws, pySpace x = true) ∧
        '4' ≤ d ∧ d ≤ '9' := by
  constructor
  · rintro ⟨pre, ws, suf, hlen, heq, hws, h4, h9⟩
    obtain rfl : pre = [] := List.eq_nil_of_length_eq_zero hlen
    obtain ⟨rfl, rfl⟩ := List.cons.inj heq
    exact ⟨rfl, ⟨ws, suf, rfl, hws⟩, h4, h9⟩
  · rintro ⟨rfl, ⟨ws, suf, rfl, hws⟩, h4, h9⟩
    exact ⟨[], ws, suf, rfl, rfl, hws, h4, h9⟩

/-- Soundness of the scan: a returned token corresponds to a rim-diameter
occurrence at the least matching position, and has the shape `R1d`. -/
theorem extractSizeAux_some : ∀ (cs : List Char) (s : String),
    extractSizeAux cs = some s →
    ∃ i d, RimMatchAt cs i d ∧ s = String.mk ['R', '1', d] ∧
      ∀ j e, RimMatchAt cs j e → i ≤ j
  | [], s, h => by cases h
  | c :: cs, s, h => by
    by_cases hc : c = 'r'
    · subst hc
      cases hm : matchAfterR cs with
      | some d =>
        rw [extractSizeAux, if_pos rfl, hm] at h
        obtain rfl : String.mk ['R', '1', d] = s := Option.some.inj h
        obtain ⟨⟨ws, suf, hcs, hws⟩, h4, h9⟩ := matchAfterR_some hm
        refine ⟨0, d, ?_, rfl, fun j e _ => Nat.zero_le j⟩
        exact rimMatchAt_zero.mpr ⟨rfl, ⟨ws, suf, hcs, hws⟩, h4, h9⟩
      | none =>
        rw [extractSizeAux, if_pos rfl, hm] at h
        obtain ⟨i, d, hmatch, hs, hmin⟩ := extractSizeAux_some cs s h
        refine ⟨i + 1, d, rimMatchAt_cons.mpr hmatch, hs, ?_⟩
        intro j e hj
        cases j with
        | zero =>
          obtain ⟨-, ⟨ws, suf, hcs, hws⟩, h4, h9⟩ := rimMatchAt_zero.mp hj
          rw [hcs, matchAfterR_complete ws suf e hws h4 h9] at hm
          cases hm
        | succ j => exact Nat.succ_le_succ (hmin j e (rimMatchAt_cons.mp hj))
    · rw [extractSizeAux, if_neg hc] at h
      obtain ⟨i, d, hmatch, hs, hmin⟩ := extractSizeAux_some cs s h
      refine ⟨i + 1, d, rimMatchAt_cons.mpr hmatch, hs, ?_⟩
      intro j e hj
      cases j with
      | zero => exact absurd (rimMatchAt_zero.mp hj).1 hc
      | succ j => exact Nat.succ_le_succ (hmin j e (rimMatchAt_cons.mp hj))

/-- Completeness of the scan: returning `none` means no rim-diameter
occurrence exists anywhere in the scanned text. -/
theorem extractSizeAux_none : ∀ (cs : List Char),
    extractSizeAux cs = none → ∀ (i : Nat) (d : Char), ¬ RimMatchAt cs i d
  | [], _, i, d => rimMatchAt_nil i d
  | c :: cs, h, i, d => by
    by_cases hc : c = 'r'
    · subst hc
      cases hm : matchAfterR cs with
      | some e => rw [extractSizeAux, if_pos rfl, hm] at h; cases h
      | none =>
        rw [extractSizeAux, if_pos rfl, hm] at h
        intro hmatch
        cases i with
        | zero =>
          obtain ⟨-, ⟨ws, suf, hcs, hws⟩, h4, h9⟩ := rimMatchAt_zero.mp hmatch
          rw [hcs, matchAfterR_complete ws suf d hws h4 h9] at hm
          cases hm
        | succ i => exact extractSizeAux_none cs h i d (rimMatchAt_cons.mp hmatch)
    · rw [extractSizeAux, if_neg hc] at h
      intro hmatch
      cases i with
      | zero => exact absurd (rimMatchAt_zero.mp hmatch).1 hc
      | succ i => exact extractSizeAux_none cs h i d (rimMatchAt_cons.mp hmatch)

/-- Any rim-diameter occurrence makes the scan succeed. -/
theorem extractSizeAux_isSome {cs : List Char} {i : Nat} {d : Char}
    (h : RimMatchAt cs i d) : ∃ s, extractSizeAux cs = some s := by
  cases he : extractSizeAux cs with
  | some s => exact ⟨s, rfl⟩
  | none => exact absurd h (extractSizeAux_none cs he i d)

/-- A rim-diameter occurrence requires an `'r'` in the text. -/
theorem rimMatchAt_mem {cs : List Char} {i : Nat} {d : Char}
    (h : RimMatchAt cs i d) : 'r' ∈ cs := by
  obtain ⟨pre, ws, suf, -, heq, -⟩ := h
  rw [heq]
  exact List.mem_append_right pre (List.mem_cons_self _ _)

/-- `List.find?` returning `some b` splits the list at the first hit: `b`
satisfies the predicate and everything before it fails it. -/
theorem find?_eq_some_split {α : Type} (p : α → Bool) : ∀ (l : List α) (b : α),
    l.find? p = some b →
    p b = true ∧ ∃ pre suf, l = pre ++ b :: suf ∧ ∀ x ∈ pre, p x = false
  | [], b, h => by cases h
  | a :: l, b, h => by
    cases ha : p a with
    | true =>
      rw [List.find?_cons_of_pos _ ha] at h
      obtain rfl : a = b := Option.some.inj h
      exact ⟨ha, [], l, rfl, by simp⟩
    | false =>
      rw [List.find?_cons_of_neg _ (by simp [ha])] at h
      obtain ⟨hb, pre, suf, heq, hpre⟩ := find?_eq_some_split p l b h
      refine ⟨hb, a :: pre, suf, by rw [heq]; rfl, ?_⟩
      intro x hx
      rcases List.mem_cons.mp hx with rfl | hx'
      · exact ha
      · exact hpre x hx'

/-! ## The claims -/

/-- C1: for every query, candidate list and failure mode of the external
ranking call, `ai_search_and_rank` never propagates an exception (it is total
in the model, every guarded failure being a `RankResponse`), always returns a
sequence of length at most `max_results`, and on failure falls back to the
first `max_results` items of the unranked candidate sequence. -/
theorem C1_rank_failure_degrades_gracefully (query : String) (tires : List Tire)
    (keyword_mapping : List (String × List String)) (api_key : String)
    (max_results : Nat) (response : RankResponse) :
    (ai_search_and_rank query tires keyword_mapping api_key max_results
        response).length ≤ max_results ∧
    (response.isParsedList = false →
      ai_search_and_rank query tires keyword_mapping api_key max_results response =
        (searchCandidates query tires keyword_mapping).take max_results) := by
  constructor
  · cases response <;>
      simp [ai_search_and_rank, List.length_take]
  · intro h
    cases response with
    | parsedList items => simp [RankResponse.isParsedList] at h
    | parsedNonList => rfl
    | exn => rfl

/-- C1 witness: a concrete failing external call returns the concrete
fallback. -/
theorem C1_rank_failure_degrades_gracefully_witness :
    ai_search_and_rank "205 r16" [tireA, tireB] demoTaxonomy "key" 20
        RankResponse.exn =
      (searchCandidates "205 r16" [tireA, tireB] demoTaxonomy).take 20 :=
  (C1_rank_failure_degrades_gracefully "205 r16" [tireA, tireB] demoTaxonomy
      "key" 20 RankResponse.exn).2 rfl

/-- C3: `filter_tires` is the stable filter of the catalog by the conjunction
of the three spec sub-predicates (each vacuously true on an absent/empty
intent field), hence a subsequence of the input in original order; with no
size, no brand and no categories it returns the catalog unchanged. -/
theorem C3_filter_is_stable_conjunctive_filter (tires : List Tire)
    (categories : List String) (target_size target_brand : Option String) :
    filter_tires tires categories target_size target_brand =
      tires.filter (specKeep categories target_size target_brand) ∧
    List.Sublist (filter_tires tires categories target_size target_brand) tires ∧
    filter_tires tires [] none none = tires := by
  refine ⟨filter_tires_eq_filter .., ?_, ?_⟩
  · rw [filter_tires_eq_filter]
    exact List.filter_sublist tires
  · rw [filter_tires_eq_filter]
    exact List.filter_eq_self.mpr (fun t _ => rfl)

/-- C5: on the three-item scenario catalog with the scenario taxonomy, the
extraction of size, brand and categories from `"Brand1 r17 sport"` followed by
`filter_tires` yields exactly `[tireC]`. -/
theorem C5_scenario_filters_to_item_C :
    filter_tires [tireA, tireB, tireC]
      (extract_categories "Brand1 r17 sport" demoTaxonomy)
      (extract_size "Brand1 r17 sport")
      (extract_brand "Brand1 r17 sport" (kmGet demoTaxonomy "brand")) =
      [tireC] := by
  decide

/-- C6: an empty deterministic-filter result makes the candidate set passed to
ranking exactly the first `min 50 catalog_size` items of the unfiltered
catalog in original order, and a non-empty filter result is passed on
uncapped. -/
theorem C6_empty_filter_fallback (tires : List Tire) (categories : List String)
    (target_size target_brand : Option String) :
    (filter_tires tires categories target_size target_brand = [] →
      candidatesFrom tires categories target_size target_brand = tires.take 50 ∧
      (candidatesFrom tires categories target_size target_brand).length =
        min 50 tires.length) ∧
    (filter_tires tires categories target_size target_brand ≠ [] →
      candidatesFrom tires categories target_size target_brand =
        filter_tires tires categories target_size target_brand) := by
  constructor
  · intro h
    have hcf : candidatesFrom tires categories target_size target_brand =
        tires.take 50 := by
      simp [candidatesFrom, h]
    exact ⟨hcf, by rw [hcf, List.length_take]⟩
  · intro h
    simp [candidatesFrom, h]

/-- C6 witness: a one-item catalog with an unmatchable size falls back to
`take 50`; with an empty intent the non-empty filter result passes through. -/
theorem C6_empty_filter_fallback_witness :
    (candidatesFrom [tireA] [] (some "R19") none = [tireA].take 50 ∧
      (candidatesFrom [tireA] [] (some "R19") none).length =
        min 50 [tireA].length) ∧
    candidatesFrom [tireA] [] none none = filter_tires [tireA] [] none none :=
  ⟨(C6_empty_filter_fallback [tireA] [] (some "R19") none).1 (by decide),
   (C6_empty_filter_fallback [tireA] [] none none).2 (by decide)⟩

/-- C8: `filter_tires` is idempotent: filtering an already-filtered result
with the same intent returns the same sequence. -/
theorem C8_filter_tires_idempotent (tires : List Tire) (categories : List String)
    (target_size target_brand : Option String) :
    filter_tires (filter_tires tires categories target_size target_brand)
        categories target_size target_brand =
      filter_tires tires categories target_size target_brand := by
  rw [filter_tires_eq_filter, filter_tires_eq_filter]
  exact List.filter_eq_self.mpr (fun t ht => List.of_mem_filter ht)

/-- C2 counterexample: the query `"r14 r16"` contains the substring `"r16"`,
yet `extract_size` returns `"R14"`, not `"R16"`, because the left-to-right
scan hits the `r14` occurrence first. -/
theorem C2_counterexample_r14_r16 :
    containsSub "r16".data "r14 r16".data = true ∧
    extract_size "r14 r16" = some "R14" ∧
    extract_size "r14 r16" ≠ some "R16" := by
  refine ⟨by decide, by decide, by decide⟩

/-- C2 (amended): a query containing `"r16"` or `"R 16"` (any casing and
spacing, i.e. a rim-diameter occurrence with digit `'6'` in the lower-cased
query) makes `extract_size` return some token `R1d` with `d` between `'4'`
and `'9'` — `"R16"` itself whenever that occurrence is the leftmost
rim-diameter occurrence; and a query whose only such patterns lie outside
14–19 returns nothing, since any `some` result exhibits an in-range
occurrence. -/
theorem C2_size_r16_amended (q : String) :
    ((∃ i, RimMatchAt (pyLower q) i '6') →
      ∃ d, extract_size q = some (String.mk ['R', '1', d]) ∧ '4' ≤ d ∧ d ≤ '9') ∧
    (∀ s, extract_size q = some s → ∃ i d, RimMatchAt (pyLower q) i d) := by
  constructor
  · rintro ⟨i, hmatch⟩
    obtain ⟨s, hs⟩ := extractSizeAux_isSome hmatch
    obtain ⟨j, d, hm, rfl, -⟩ := extractSizeAux_some _ s hs
    obtain ⟨-, -, -, -, -, -, h4, h9⟩ := hm
    exact ⟨d, hs, h4, h9⟩
  · intro s hs
    obtain ⟨i, d, hm, -, -⟩ := extractSizeAux_some _ s hs
    exact ⟨i, d, hm⟩

/-- C2 witness: `"a r 16 b"` has a rim-diameter occurrence with digit `'6'`
at position 2 and indeed yields a token, and the `some` result on `"r17"`
exhibits an occurrence. -/
theorem C2_size_r16_amended_witness :
    (∃ d, extract_size "a r 16 b" = some (String.mk ['R', '1', d]) ∧
      '4' ≤ d ∧ d ≤ '9') ∧
    ∃ i d, RimMatchAt (pyLower "r17") i d :=
  ⟨(C2_size_r16_amended "a r 16 b").1
      ⟨2, ['a', ' '], [' '], [' ', 'b'], by decide, by decide, by decide,
        by decide, by decide⟩,
   (C2_size_r16_amended "r17").2 "R17" (by decide)⟩

/-- C4: a `some` result of `extract_size` is `"R"` followed by `'1'` and the
in-range digit of a rim-diameter occurrence (letter `r`, optional whitespace,
two digits making 14–19) located at the least matching position of the
lower-cased query; whenever such an occurrence exists a token is returned;
and when no such occurrence exists the result is `none`. -/
theorem C4_extract_size_first_match (q : String) :
    (∀ s, extract_size q = some s →
      ∃ i d, RimMatchAt (pyLower q) i d ∧ s = String.mk ['R', '1', d] ∧
        ∀ j e, RimMatchAt (pyLower q) j e → i ≤ j) ∧
    (∀ i d, RimMatchAt (pyLower q) i d → ∃ s, extract_size q = some s) ∧
    ((∀ i d, ¬ RimMatchAt (pyLower q) i d) → extract_size q = none) := by
  refine ⟨?_, ?_, ?_⟩
  · intro s hs
    exact extractSizeAux_some _ s hs
  · intro i d h
    exact extractSizeAux_isSome h
  · intro hnone
    cases he : extract_size q with
    | none => rfl
    | some s =>
      obtain ⟨i, d, hm, -, -⟩ := extractSizeAux_some _ s he
      exact absurd hm (hnone i d)

/-- C4 witness: the concrete result on `"x R 15"` comes from a least
occurrence, the concrete occurrence at position 2 of `"x R 15"` forces a
token, and `"zzz"`, which has no `'r'` at all, yields `none`. -/
theorem C4_extract_size_first_match_witness :
    (∃ i d, RimMatchAt (pyLower "x R 15") i d ∧
      ("R15" : String) = String.mk ['R', '1', d] ∧
      ∀ j e, RimMatchAt (pyLower "x R 15") j e → i ≤ j) ∧
    (∃ s, extract_size "x R 15" = some s) ∧
    extract_size "zzz" = none :=
  ⟨(C4_extract_size_first_match "x R 15").1 "R15" (by decide),
   (C4_extract_size_first_match "x R 15").2.1 2 '5'
      ⟨['x', ' '], [' '], [], by decide, by decide, by decide, by decide,
        by decide⟩,
   (C4_extract_size_first_match "zzz").2.2
      (fun i d h => absurd (rimMatchAt_mem h) (by decide))⟩

/-- C7: `extract_brand` returns the first trigger in the declared order whose
lower-cased form is a substring of the lower-cased query (so every earlier
trigger fails the substring test and the returned value, in its stored
casing, is an element of the list), and returns `none` exactly when no
trigger's lower-cased form occurs in the lower-cased query. -/
theorem C7_extract_brand_first_trigger (query : String)
    (brand_keywords : List String) :
    (∀ b, extract_brand query brand_keywords = some b →
      b ∈ brand_keywords ∧
      containsSub (pyLower b) (pyLower query) = true ∧
      ∃ pre suf, brand_keywords = pre ++ b :: suf ∧
        ∀ x ∈ pre, containsSub (pyLower x) (pyLower query) = false) ∧
    (extract_brand query brand_keywords = none ↔
      ∀ b ∈ brand_keywords, containsSub (pyLower b) (pyLower query) = false) := by
  constructor
  · intro b hb
    obtain ⟨hp, pre, suf, heq, hpre⟩ := find?_eq_some_split _ brand_keywords b hb
    exact ⟨List.mem_of_find?_eq_some hb, hp, pre, suf, heq, hpre⟩
  · unfold extract_brand
    rw [List.find?_eq_none]
    constructor
    · intro h b hb
      simpa using h b hb
    · intro h b hb
      simp [h b hb]

/-- C7 witness: on `"want brand2 tires"` with triggers
`["Brand1", "Brand2"]`, the hit is `"Brand2"`, preceded only by failing
triggers. -/
theorem C7_extract_brand_first_trigger_witness :
    "Brand2" ∈ (["Brand1", "Brand2"] : List String) ∧
    containsSub (pyLower "Brand2") (pyLower "want brand2 tires") = true ∧
    ∃ pre suf, (["Brand1", "Brand2"] : List String) = pre ++ "Brand2" :: suf ∧
      ∀ x ∈ pre, containsSub (pyLower x) (pyLower "want brand2 tires") = false :=
  (C7_extract_brand_first_trigger "want brand2 tires" ["Brand1", "Brand2"]).1
    "Brand2" (by decide)

/-- C9: `load_data` fails with the schema error exactly when the resource
loaded but lacks the `"tires"` collection or the `"keyword_mapping"`
taxonomy, fails with the not-found error exactly when the resource does not
exist, and otherwise returns the loaded data unchanged. -/
theorem C9_load_data_errors (α : Type) (res : Option (List (String × α))) :
    (load_data res = Except.error LoadError.schemaError ↔
      ∃ data, res = some data ∧
        (hasKey data "tires" = false ∨ hasKey data "keyword_mapping" = false)) ∧
    (load_data res = Except.error LoadError.notFound ↔ res = none) ∧
    (∀ data, res = some data → hasKey data "tires" = true →
      hasKey data "keyword_mapping" = true → load_data res = Except.ok data) := by
  refine ⟨?_, ?_, ?_⟩
  · cases res with
    | none => simp [load_data]
    | some data =>
      cases ht : hasKey data "tires" <;>
        cases hk : hasKey data "keyword_mapping" <;>
          simp [load_data, ht, hk]
  · cases res with
    | none => simp [load_data]
    | some data =>
      cases ht : hasKey data "tires" <;>
        cases hk : hasKey data "keyword_mapping" <;>
          simp [load_data, ht, hk]
  · rintro data rfl ht hk
    simp [load_data, ht, hk]

/-- C9 witness: a resource holding both top-level keys loads unchanged. -/
theorem C9_load_data_errors_witness :
    load_data (some [("tires", 1), ("keyword_mapping", 2)]) =
      Except.ok [("tires", 1), ("keyword_mapping", 2)] :=
  (C9_load_data_errors Nat (some [("tires", 1), ("keyword_mapping", 2)])).2.2
    [("tires", 1), ("keyword_mapping", 2)] rfl (by decide) (by decide)

/-- C10: no word boundary is imposed: in `"super 16"` the `r` of `"super"`
followed by the number 16 is accepted, so `extract_size` returns `"R16"`
rather than nothing. -/
theorem C10_no_word_boundary : extract_size "super 16" = some "R16" := by
  decide

end AiSearch

